import Mathlib

/-!
Formal model of the secure-connection core of scuttle-chat:
`src/peer_connection.rs` (Handshaker, PeerConnection, reader and writer
loops) and `src/event.rs` (the four event producers feeding the event
multiplexer).

The two Rust source files are embedded shallowly: each thread loop becomes
a pure Lean function over the finite sequence of results its blocking calls
would return (channel receives, socket reads, send outcomes), producing the
list of messages it passed on and the state in which the loop ended up.
Collaborator modules that are not part of the two source files (the
`box_stream` codec, `discovery`, `peer_manager`, the `ssb_handshake`
crypto) are modelled from their documented interfaces as oracles or plain
records, never executed.
-/

/-! ## Data model -/

/-- Modelled from the spec: a peer's 32-byte public-key identity
(`ssb_crypto::PublicKey`); the bytes themselves are opaque here. -/
structure PublicKey where
  bytes : List Nat
deriving DecidableEq, Repr

/-- Modelled from the spec: the local secret key (`ssb_crypto::SecretKey`). -/
structure SecretKey where
  bytes : List Nat
deriving DecidableEq, Repr

/-- Modelled from the spec: the shared network key (`ssb_crypto::NetworkKey`). -/
structure NetworkKey where
  bytes : List Nat
deriving DecidableEq, Repr

/-- Modelled from the spec: an opaque transport (socket) address. -/
structure SocketAddr where
  addr : Nat
deriving DecidableEq, Repr

/-- Modelled from the spec: the protocol tag of a `PeerAddr`; `net` is the
variant used by `server_handshake` (`Protocol::Net` in `discovery`); any
other variant of the missing `discovery` module is abstracted as `other`. -/
inductive Protocol where
  | net
  | other (tag : Nat)
deriving DecidableEq, Repr

/-- Modelled from the spec: `PeerAddr` from the missing `discovery` module:
public-key identity, transport address and protocol tag. -/
structure PeerAddr where
  public_key : PublicKey
  socket_addr : SocketAddr
  protocol : Protocol
deriving DecidableEq, Repr

/-- Modelled from the spec: `PeerEvent` from the missing `peer_manager`
module; the variant used by the reader loop is `MessageReceived(text)`. -/
inductive PeerEvent where
  | messageReceived (text : String)
deriving DecidableEq, Repr

/-- Modelled from the spec: `PeerManagerEvent` from the missing
`peer_manager` module: a peer identity together with a `PeerEvent`. -/
structure PeerManagerEvent where
  peer : PeerAddr
  event : PeerEvent
deriving DecidableEq, Repr

/-! ## Error taxonomy (src/peer_connection.rs lines 26-40) -/

/-- An `std::io::Error`, abstracted to an opaque code. -/
structure IoError where
  code : Nat
deriving DecidableEq, Repr

/-- Modelled from the spec: `BoxStreamError` from the missing `box_stream`
module: a channel-level failure (malformed frame, decryption failure,
transport error), abstracted to an opaque code. -/
structure BoxStreamError where
  code : Nat
deriving DecidableEq, Repr

/-- `std::sync::mpsc::RecvError`: a unit struct signalling that every
sender handle of the channel has been dropped. -/
structure RecvError where
deriving DecidableEq, Repr

/-- `ssb_handshake::HandshakeError`. The server-side closure converts an
`std::io::Error` into it with the `?` operator, so it has an io-carrying
variant; every cryptographic authentication failure is abstracted into
`authFailure`. -/
inductive HandshakeError where
  | ioError (source : IoError)
  | authFailure (code : Nat)
deriving DecidableEq, Repr

/-- `PeerConnectionError` from src/peer_connection.rs lines 26-40, one
variant per `#[derive(Snafu)]` context selector. -/
inductive PeerConnectionError where
  | boxReaderError (source : BoxStreamError)
  | boxWriterError (source : IoError)
  | msgReceiveFailed (source : RecvError)
  | handshakeFailed (source : HandshakeError)
  | tcpStreamCloneFailed (source : IoError)
  | cannotConnectToPeer (source : IoError)
deriving DecidableEq, Repr

/-! ## UTF-8 codec

`String::from_utf8` (used by the reader loop) and `String::into_bytes`
(used by the writer loop) are the standard UTF-8 decoder and encoder.
They are modelled on `List Nat` byte sequences: the decoder accepts
exactly the well-formed encodings (continuation bytes in range, no
overlong form, no surrogate, no code point above 0x10FFFF). -/

/-- Is `b` a UTF-8 continuation byte (0x80-0xBF)? -/
def isContByte (b : Nat) : Prop :=
  0x80 ≤ b ∧ b < 0xC0

instance (b : Nat) : Decidable (isContByte b) := by
  unfold isContByte; infer_instance

/-- Decode the first unicode scalar value of a UTF-8 byte sequence,
returning it with the remaining bytes; `none` when the head is not a
well-formed encoding (continuation byte out of range, overlong form,
surrogate, or code point above 0x10FFFF). -/
def utf8DecodeOne : List Nat → Option (Char × List Nat)
  | [] => none
  | b0 :: rest =>
    if b0 < 0x80 then
      some (Char.ofNat b0, rest)
    else if b0 < 0xC0 then
      none
    else if b0 < 0xE0 then
      match rest with
      | b1 :: rest2 =>
        if isContByte b1 then
          if 0x80 ≤ (b0 - 0xC0) * 64 + (b1 - 0x80) then
            some (Char.ofNat ((b0 - 0xC0) * 64 + (b1 - 0x80)), rest2)
          else none
        else none
      | _ => none
    else if b0 < 0xF0 then
      match rest with
      | b1 :: b2 :: rest3 =>
        if isContByte b1 ∧ isContByte b2 then
          if 0x800 ≤ (b0 - 0xE0) * 4096 + (b1 - 0x80) * 64 + (b2 - 0x80) ∧
              ((b0 - 0xE0) * 4096 + (b1 - 0x80) * 64 + (b2 - 0x80) < 0xD800 ∨
                0xDFFF < (b0 - 0xE0) * 4096 + (b1 - 0x80) * 64 + (b2 - 0x80)) then
            some (Char.ofNat ((b0 - 0xE0) * 4096 + (b1 - 0x80) * 64 + (b2 - 0x80)),
              rest3)
          else none
        else none
      | _ => none
    else if b0 < 0xF8 then
      match rest with
      | b1 :: b2 :: b3 :: rest4 =>
        if isContByte b1 ∧ isContByte b2 ∧ isContByte b3 then
          if 0x10000 ≤ (b0 - 0xF0) * 0x40000 + (b1 - 0x80) * 4096
                + (b2 - 0x80) * 64 + (b3 - 0x80) ∧
              (b0 - 0xF0) * 0x40000 + (b1 - 0x80) * 4096
                + (b2 - 0x80) * 64 + (b3 - 0x80) < 0x110000 then
            some (Char.ofNat ((b0 - 0xF0) * 0x40000 + (b1 - 0x80) * 4096
              + (b2 - 0x80) * 64 + (b3 - 0x80)), rest4)
          else none
        else none
      | _ => none
    else none

/-- Scalar-by-scalar decoding loop; `fuel` bounds the number of scalars and
is set to the byte length by `utf8Decode`, which always suffices because
every scalar consumes at least one byte. -/
def utf8DecodeAux : Nat → List Nat → Option (List Char)
  | _, [] => some []
  | 0, _ :: _ => none
  | fuel + 1, b0 :: rest =>
    match utf8DecodeOne (b0 :: rest) with
    | none => none
    | some (c, rest2) => (utf8DecodeAux fuel rest2).map (fun cs => c :: cs)

/-- Model of Rust `String::from_utf8` on a byte list: decode a UTF-8 byte
sequence to its code points, or `none` when the sequence is invalid. -/
def utf8Decode (l : List Nat) : Option (List Char) :=
  utf8DecodeAux l.length l

/-- Standard UTF-8 encoding of one unicode scalar value. -/
def utf8EncodeChar (c : Char) : List Nat :=
  let cp := c.toNat
  if cp < 0x80 then [cp]
  else if cp < 0x800 then
    [0xC0 + cp / 64, 0x80 + cp % 64]
  else if cp < 0x10000 then
    [0xE0 + cp / 4096, 0x80 + cp / 64 % 64, 0x80 + cp % 64]
  else
    [0xF0 + cp / 0x40000, 0x80 + cp / 4096 % 64, 0x80 + cp / 64 % 64,
      0x80 + cp % 64]

/-- UTF-8 encoding of a code-point sequence. -/
def utf8Encode (cs : List Char) : List Nat :=
  (cs.map utf8EncodeChar).flatten

/-- Model of Rust `String::into_bytes`: the UTF-8 bytes of a string. -/
def strBytes (s : String) : List Nat :=
  utf8Encode s.data

/-! ## Reader loop (src/peer_connection.rs lines 42-68) -/

/-- One return value of `BoxReader::recv`, per the documented `SecureChannel`
contract: a decrypted payload, the graceful-close signal (`Ok(None)`), or a
channel-level error. -/
abbrev RecvResult := Except BoxStreamError (Option (List Nat))

/-- Rust `{:?}` debug rendering of a `Vec<u8>`, e.g. `[104, 105]`. -/
def rustDebugBytes (raw : List Nat) : String :=
  "[" ++ String.intercalate ", " (raw.map toString) ++ "]"

/-- The fallback text built by the reader loop for a non-UTF-8 payload
(line 56 of src/peer_connection.rs). -/
def rawBytesMsg (raw : List Nat) : String :=
  "Raw bytes: " ++ rustDebugBytes raw

/-- The text forwarded for a payload (lines 55-56):
`String::from_utf8(raw).unwrap_or(format ... raw)`. -/
def decodePeerMsg (raw : List Nat) : String :=
  match utf8Decode raw with
  | some cs => String.mk cs
  | none => rawBytesMsg raw

/-- The text chosen for one `Ok` receive (lines 54-58): a payload is
decoded, the close signal becomes `"Goodbye!"`. -/
def msgOfRecv : Option (List Nat) → String
  | some rawBytes => decodePeerMsg rawBytes
  | none => "Goodbye!"

/-- The event the reader loop sends for the text `msg` (lines 60-63). -/
def readerEvent (peer : PeerAddr) (msg : String) : PeerManagerEvent :=
  { peer := peer, event := PeerEvent.messageReceived msg }

/-- The state a loop thread is left in by a finite trace of its blocking
calls: still running (blocked in the next call), or exited with the given
`Result` error as the thread's completion value. -/
inductive LoopState where
  | running
  | exited (e : PeerConnectionError)
deriving DecidableEq, Repr

/-- The reader loop body (src/peer_connection.rs lines 50-67) over the
finite sequence `results` of values returned by successive
`box_reader.recv()` calls. `sinkOk n` tells whether the `n`-th `tx.send`
to the event sink would succeed; the source discards that send's `Result`
(lines 60-65), so the oracle is never consulted. Returns the events passed
to `tx.send`, in order, and the loop's final state; an exhausted input
leaves the loop blocked in its next `recv`. -/
def readerLoop (peer : PeerAddr) (sinkOk : Nat → Bool) :
    List RecvResult → List PeerManagerEvent × LoopState
  | [] => ([], LoopState.running)
  | Except.error e :: _ =>
    ([], LoopState.exited (PeerConnectionError.boxReaderError e))
  | Except.ok maybeBytes :: rest =>
    let r := readerLoop peer sinkOk rest
    (readerEvent peer (msgOfRecv maybeBytes) :: r.1, r.2)

/-! ## Writer loop (src/peer_connection.rs lines 70-84) -/

/-- One return value of the writer loop's `rx.recv()`: a queued outbound
message, or `closed` when every sender handle has been dropped
(`Err(RecvError)`). -/
inductive WriterRecv where
  | msg (s : String)
  | closed
deriving DecidableEq, Repr

/-- The writer loop body (src/peer_connection.rs lines 75-81) over the
finite sequence `queue` of values its `rx.recv()` calls return, in channel
(FIFO) order. `sendErr n` is the outcome of the `n`-th `box_writer.send`
(`none` = success). Returns the byte payloads successfully pushed through
the outbound `SecureChannel`, in order, and the loop's final state. -/
def writerLoop (sendErr : Nat → Option IoError) :
    List WriterRecv → Nat → List (List Nat) × LoopState
  | [], _ => ([], LoopState.running)
  | WriterRecv.closed :: _, _ =>
    ([], LoopState.exited (PeerConnectionError.msgReceiveFailed {}))
  | WriterRecv.msg s :: rest, n =>
    match sendErr n with
    | some e => ([], LoopState.exited (PeerConnectionError.boxWriterError e))
    | none =>
      let r := writerLoop sendErr rest (n + 1)
      (strBytes s :: r.1, r.2)

/-- The all-successful send oracle (live channel, live sink). -/
def noSendErr : Nat → Option IoError := fun _ => none

/-- A send oracle whose `k`-th send fails with `e` and all others succeed. -/
def sendErrAt (k : Nat) (e : IoError) : Nat → Option IoError :=
  fun n => if n = k then some e else none

/-! ## PeerConnection construction (src/peer_connection.rs lines 86-183) -/

deriving instance DecidableEq for Except

/-- A `TcpStream` handle: an opaque identity plus the outcome its
`peer_addr()` call would report (the observed remote address). -/
structure TcpStream where
  id : Nat
  peerAddrResult : Except IoError SocketAddr
deriving DecidableEq, Repr

/-- Modelled from the spec: `ssb_crypto::handshake::HandshakeKeys`, the
per-direction session keys and nonce generators derived by the handshake;
keys and nonce generators are opaque here. -/
structure HandshakeKeys where
  write_key : Nat
  write_noncegen : Nat
  read_key : Nat
  read_noncegen : Nat
deriving DecidableEq, Repr

/-- Modelled from the spec: a `BoxWriter` (outbound `SecureChannel`): the
transport half it owns and the key/nonce generator it was seeded with
(`BoxWriter::new(stream, key, noncegen)`). -/
structure BoxWriter where
  stream : TcpStream
  key : Nat
  noncegen : Nat
deriving DecidableEq, Repr

/-- Modelled from the spec: a `BoxReader` (inbound `SecureChannel`),
mirror image of `BoxWriter`. -/
structure BoxReader where
  stream : TcpStream
  key : Nat
  noncegen : Nat
deriving DecidableEq, Repr

/-- The handle returned by `PeerConnection::from_handshake`
(src/peer_connection.rs lines 17-22): the peer identity, the outbound send
handle (the id of the fresh mpsc channel), and the two opaque join-handle
ids of the spawned loops (private fields in the source). No socket and no
key material appears in the handle. -/
structure PeerConnection where
  peer : PeerAddr
  peer_writer_tx : Nat
  reader_loop_handle : Nat
  writer_loop_handle : Nat
deriving DecidableEq, Repr

/-- What `from_handshake` did to its environment: which loops were spawned
with which arguments, and whether the outbound channel was created.
`writerLoopSpawned` carries the channel id the writer loop drains and the
`BoxWriter` it drives; `readerLoopSpawned` carries the event-sink id, the
peer identity and the `BoxReader` it drives. -/
structure ConstructionTrace where
  writerLoopSpawned : Option (Nat × BoxWriter)
  readerLoopSpawned : Option (Nat × PeerAddr × BoxReader)
  senderCreated : Option Nat
deriving DecidableEq, Repr

/-- The trace of a construction that failed before spawning anything. -/
def emptyTrace : ConstructionTrace :=
  { writerLoopSpawned := none, readerLoopSpawned := none, senderCreated := none }

/-- The environment of a connection construction: the outcome of
`tcp_stream.try_clone()` and the identity of the fresh mpsc channel
`spawn_writer_loop` would create. -/
structure ConnEnv where
  cloneResult : TcpStream → Except IoError TcpStream
  chanId : Nat

/-- `PeerConnection::from_handshake` (src/peer_connection.rs lines 87-113):
run the injected authentication step; on success clone the stream, wrap the
clone in a `BoxWriter` seeded with the write-direction keys, spawn the
writer loop on it, wrap the original stream in a `BoxReader` seeded with
the read-direction keys, spawn the reader loop on it, and return the
handle. Any failure is returned before anything is spawned. -/
def fromHandshake (env : ConnEnv) (event_bus : Nat) (tcp_stream : TcpStream)
    (perform_handshake : TcpStream → Except HandshakeError (PeerAddr × HandshakeKeys)) :
    Except PeerConnectionError PeerConnection × ConstructionTrace :=
  match perform_handshake tcp_stream with
  | Except.error e => (Except.error (PeerConnectionError.handshakeFailed e), emptyTrace)
  | Except.ok (peer, hs_keys) =>
    match env.cloneResult tcp_stream with
    | Except.error e =>
      (Except.error (PeerConnectionError.tcpStreamCloneFailed e), emptyTrace)
    | Except.ok write_stream =>
      let box_writer : BoxWriter :=
        { stream := write_stream, key := hs_keys.write_key,
          noncegen := hs_keys.write_noncegen }
      let box_reader : BoxReader :=
        { stream := tcp_stream, key := hs_keys.read_key,
          noncegen := hs_keys.read_noncegen }
      (Except.ok
        { peer := peer, peer_writer_tx := env.chanId,
          reader_loop_handle := 0, writer_loop_handle := 1 },
       { writerLoopSpawned := some (env.chanId, box_writer),
         readerLoopSpawned := some (event_bus, peer, box_reader),
         senderCreated := some env.chanId })

/-- The `Handshaker` configuration (src/peer_connection.rs lines 116-122):
the shared event sink plus the local identity and network key. -/
structure Handshaker where
  event_bus : Nat
  public_key : PublicKey
  secret_key : SecretKey
  network_key : NetworkKey
deriving Repr

/-- The environment of `client_handshake`: the outcome of
`TcpStream::connect_timeout(addr, ms)` for each address/timeout pair, the
`ssb_handshake::client` oracle, and the construction environment. -/
structure ClientEnv where
  connectTimeout : SocketAddr → Nat → Except IoError TcpStream
  ssbClient : TcpStream → NetworkKey → PublicKey → SecretKey → PublicKey →
    Except HandshakeError HandshakeKeys
  conn : ConnEnv

/-- `Handshaker::client_handshake` (src/peer_connection.rs lines 139-156):
connect to `peer.socket_addr` with a 500 ms timeout (any connect failure
becomes `CannotConnectToPeer`), then construct the connection with the
initiator-role authentication step, which pairs the caller-supplied `peer`
with the derived keys. The third component logs every
`TcpStream::connect_timeout` call made (address, timeout in ms). -/
def clientHandshake (env : ClientEnv) (self : Handshaker) (peer : PeerAddr) :
    Except PeerConnectionError PeerConnection × ConstructionTrace ×
      List (SocketAddr × Nat) :=
  match env.connectTimeout peer.socket_addr 500 with
  | Except.error e =>
    (Except.error (PeerConnectionError.cannotConnectToPeer e), emptyTrace,
      [(peer.socket_addr, 500)])
  | Except.ok tcp_stream =>
    let r := fromHandshake env.conn self.event_bus tcp_stream (fun stream =>
      match env.ssbClient stream self.network_key self.public_key
          self.secret_key peer.public_key with
      | Except.error e => Except.error e
      | Except.ok keys => Except.ok (peer, keys))
    (r.1, r.2, [(peer.socket_addr, 500)])

/-- The environment of `server_handshake`: the
`ssb_handshake::server_with_client_pk` oracle plus the construction
environment. -/
structure ServerEnv where
  ssbServerWithClientPk : TcpStream → NetworkKey → PublicKey → SecretKey →
    Except HandshakeError (PublicKey × HandshakeKeys)
  conn : ConnEnv

/-- `Handshaker::server_handshake` (src/peer_connection.rs lines 158-182):
construct the connection on an accepted stream with the responder-role
authentication step, which reads the stream's observed remote address
(`stream.peer_addr()?`, io failure lifted into `HandshakeError`), runs
`server_with_client_pk`, and rebuilds the peer's address from the
authenticated public key, that remote address, and `Protocol::Net`. -/
def serverHandshake (env : ServerEnv) (self : Handshaker) (stream : TcpStream) :
    Except PeerConnectionError PeerConnection × ConstructionTrace :=
  fromHandshake env.conn self.event_bus stream (fun s =>
    match s.peerAddrResult with
    | Except.error e => Except.error (HandshakeError.ioError e)
    | Except.ok client_addr =>
      match env.ssbServerWithClientPk s self.network_key self.public_key
          self.secret_key with
      | Except.error e => Except.error e
      | Except.ok (client_pk, keys) =>
        Except.ok
          ({ public_key := client_pk, socket_addr := client_addr,
             protocol := Protocol.net }, keys))

/-! ## Event producers (src/event.rs) -/

/-- `termion::event::Key`, abstracted to the character keys the
configuration uses plus an opaque remainder. -/
inductive Key where
  | char (c : Char)
  | other (code : Nat)
deriving DecidableEq, Repr

/-- The multiplexer alphabet `Event<I>` (src/event.rs lines 11-16). -/
inductive Event (I : Type) where
  | input (i : I)
  | tick
  | newPeer (p : PeerAddr)
  | peerManagerEvent (e : PeerManagerEvent)
deriving DecidableEq, Repr

/-- The multiplexer configuration (src/event.rs lines 26-30). -/
structure Config where
  exit_key : Key
  tick_rate : Nat
deriving DecidableEq, Repr

/-- `Config::default()` (src/event.rs lines 32-39): exit key is the
character q, tick rate 250 ms. -/
def defaultConfig : Config :=
  { exit_key := Key.char 'q', tick_rate := 250 }

/-- The state a producer thread is left in by a finite trace of its
blocking calls: still looping, returned cleanly, or panicked on an
`unwrap`. -/
inductive ProducerState where
  | looping
  | returned
  | panicked
deriving DecidableEq, Repr

/-- The input producer (src/event.rs lines 52-70) over the finite sequence
`keys` of results of successive `stdin.keys()` reads. `sinkOk n` tells
whether the `n`-th send to the shared queue succeeds (the receiver is still
alive). Read errors are skipped; a read key is sent, then the thread
returns if the send failed, then returns if the key is the exit key; end of
input also returns. Returns the events delivered to the queue, in order,
and the thread's final state. -/
def inputLoop (config : Config) (sinkOk : Nat → Bool) :
    List (Except IoError Key) → Nat → List (Event Key) × ProducerState
  | [], _ => ([], ProducerState.returned)
  | Except.error _ :: rest, n => inputLoop config sinkOk rest n
  | Except.ok key :: rest, n =>
    if sinkOk n then
      if key = config.exit_key then
        ([Event.input key], ProducerState.returned)
      else
        let r := inputLoop config sinkOk rest (n + 1)
        (Event.input key :: r.1, r.2)
    else
      ([], ProducerState.returned)

/-- The tick producer (src/event.rs lines 71-77) observed for `fuel`
iterations: each iteration sends `Tick` and unwraps the send result, so a
failed send (receiver dropped) panics the thread; it never returns. -/
def tickLoop (sinkOk : Nat → Bool) : Nat → Nat → List (Event Key) × ProducerState
  | 0, _ => ([], ProducerState.looping)
  | fuel + 1, n =>
    if sinkOk n then
      let r := tickLoop sinkOk fuel (n + 1)
      (Event.tick :: r.1, r.2)
    else
      ([], ProducerState.panicked)

/-- The discovery relay producer (src/event.rs lines 78-86) over the finite
sequence of results of `peer_listener.recv()`: receive errors are skipped,
a received peer is sent as `NewPeer` with the send result discarded
(`let _res = ...`); the loop never terminates on its own. -/
def newPeerLoop (sinkOk : Nat → Bool) :
    List (Except IoError PeerAddr) → Nat → List (Event Key) × ProducerState
  | [], _ => ([], ProducerState.looping)
  | Except.error _ :: rest, n => newPeerLoop sinkOk rest n
  | Except.ok ssb_peer :: rest, n =>
    let r := newPeerLoop sinkOk rest (n + 1)
    (if sinkOk n then Event.newPeer ssb_peer :: r.1 else r.1, r.2)

/-- The peer-manager relay producer (src/event.rs lines 87-94) over the
finite sequence of results of `peer_manager_rx.recv()`: receive errors are
skipped, a received event is relayed with the send result discarded; the
loop never terminates on its own. -/
def pmLoop (sinkOk : Nat → Bool) :
    List (Except RecvError PeerManagerEvent) → Nat →
      List (Event Key) × ProducerState
  | [], _ => ([], ProducerState.looping)
  | Except.error _ :: rest, n => pmLoop sinkOk rest n
  | Except.ok pm_event :: rest, n =>
    let r := pmLoop sinkOk rest (n + 1)
    (if sinkOk n then Event.peerManagerEvent pm_event :: r.1 else r.1, r.2)

/-- A queue receiver that stays alive: every send succeeds. -/
def liveSink : Nat → Bool := fun _ => true

/-- A dropped queue receiver: every send fails. -/
def deadSink : Nat → Bool := fun _ => false

/-- A receiver alive for the first `k` sends and dropped afterwards. -/
def sinkAliveFor (k : Nat) : Nat → Bool := fun n => n < k

/-- The `Ok` keys of an input trace, in order. -/
def okKeys (l : List (Except IoError Key)) : List Key :=
  l.filterMap (fun r => r.toOption)

/-! ## Concrete fixtures (used to evaluate the model at specific inputs) -/

/-- A concrete peer address. -/
def peerA : PeerAddr :=
  { public_key := { bytes := List.replicate 32 0 }, socket_addr := { addr := 0 },
    protocol := Protocol.net }

/-- A concrete stream whose observed remote address is `{ addr := 9 }`. -/
def tsA : TcpStream :=
  { id := 5, peerAddrResult := Except.ok { addr := 9 } }

/-- Concrete session keys. -/
def keysA : HandshakeKeys :=
  { write_key := 1, write_noncegen := 2, read_key := 3, read_noncegen := 4 }

/-- A concrete handshaker configuration. -/
def hsA : Handshaker :=
  { event_bus := 11, public_key := { bytes := [1] },
    secret_key := { bytes := [2] }, network_key := { bytes := [3] } }

/-- A concrete construction environment: cloning shifts the stream id. -/
def connEnvA : ConnEnv :=
  { cloneResult := fun s => Except.ok { id := s.id + 100, peerAddrResult := s.peerAddrResult },
    chanId := 42 }

/-- A client environment whose connect attempt fails. -/
def envConnectFail : ClientEnv :=
  { connectTimeout := fun _ _ => Except.error { code := 1 },
    ssbClient := fun _ _ _ _ _ => Except.ok keysA,
    conn := connEnvA }

/-- A client environment whose handshake is rejected. -/
def envAuthFail : ClientEnv :=
  { connectTimeout := fun _ _ => Except.ok tsA,
    ssbClient := fun _ _ _ _ _ => Except.error (HandshakeError.authFailure 3),
    conn := connEnvA }

/-- A client environment whose stream duplication fails. -/
def envCloneFail : ClientEnv :=
  { connectTimeout := fun _ _ => Except.ok tsA,
    ssbClient := fun _ _ _ _ _ => Except.ok keysA,
    conn := { cloneResult := fun _ => Except.error { code := 2 }, chanId := 42 } }

/-- A server environment authenticating public key `[7]`. -/
def serverEnvA : ServerEnv :=
  { ssbServerWithClientPk := fun _ _ _ _ => Except.ok ({ bytes := [7] }, keysA),
    conn := connEnvA }

/-! ## Theorems: UTF-8 codec -/
/-- A successfully decoded scalar consumes at least one byte. -/
theorem utf8DecodeOne_length {l : List Nat} {c : Char} {rest : List Nat}
    (h : utf8DecodeOne l = some (c, rest)) : rest.length < l.length := by
  match l with
  | [] => simp [utf8DecodeOne] at h
  | b0 :: r =>
    simp only [utf8DecodeOne] at h
    repeat' split at h
    all_goals
      first
        | exact Option.noConfusion h
        | (simp only [Option.some.injEq, Prod.mk.injEq] at h
           obtain ⟨h1, h2⟩ := h
           subst h2
           simp only [List.length_cons]
           omega)

/-- The decoding loop is independent of the fuel, once the fuel covers the
byte length. -/
theorem utf8DecodeAux_congr (f1 : Nat) : ∀ (f2 : Nat) (l : List Nat),
    l.length ≤ f1 → l.length ≤ f2 → utf8DecodeAux f1 l = utf8DecodeAux f2 l := by
  induction f1 with
  | zero =>
    intro f2 l h1 h2
    have hl : l = [] := List.eq_nil_of_length_eq_zero (Nat.le_zero.mp h1)
    subst hl
    cases f2 <;> rfl
  | succ g ih =>
    intro f2 l h1 h2
    cases l with
    | nil => cases f2 <;> rfl
    | cons b0 r =>
      cases f2 with
      | zero => simp at h2
      | succ g2 =>
        simp only [utf8DecodeAux]
        cases heq : utf8DecodeOne (b0 :: r) with
        | none => rfl
        | some p =>
          obtain ⟨c, rest2⟩ := p
          have hlen := utf8DecodeOne_length heq
          simp only [List.length_cons] at h1 h2 hlen
          dsimp only
          rw [ih g2 rest2 (by omega) (by omega)]

/-- Decoding the UTF-8 encoding of one scalar recovers exactly that scalar:
the encoder emits a form the decoder accepts (in range, not overlong, not a
surrogate). -/
theorem utf8DecodeOne_encodeChar (c : Char) (r : List Nat) :
    utf8DecodeOne (utf8EncodeChar c ++ r) = some (c, r) := by
  have hv : c.toNat < 0xD800 ∨ (0xDFFF < c.toNat ∧ c.toNat < 0x110000) := c.valid
  have hofNat : Char.ofNat c.toNat = c := Char.ofNat_toNat c
  unfold utf8EncodeChar
  by_cases h1 : c.toNat < 0x80
  · simp only [if_pos h1, List.cons_append, List.nil_append]
    simp only [utf8DecodeOne]
    rw [if_pos h1, hofNat]
  · by_cases h2 : c.toNat < 0x800
    · simp only [if_neg h1, if_pos h2, List.cons_append, List.nil_append]
      simp only [utf8DecodeOne]
      rw [if_neg (by omega), if_neg (by omega), if_pos (by omega),
        if_pos (show isContByte (0x80 + c.toNat % 64) from ⟨by omega, by omega⟩),
        if_pos (by omega),
        show (0xC0 + c.toNat / 64 - 0xC0) * 64 + (0x80 + c.toNat % 64 - 0x80)
          = c.toNat from by omega, hofNat]
    · by_cases h3 : c.toNat < 0x10000
      · simp only [if_neg h1, if_neg h2, if_pos h3, List.cons_append,
          List.nil_append]
        simp only [utf8DecodeOne]
        rw [if_neg (by omega), if_neg (by omega), if_neg (by omega),
          if_pos (by omega),
          if_pos (show isContByte (0x80 + c.toNat / 64 % 64) ∧
              isContByte (0x80 + c.toNat % 64) from
            ⟨⟨by omega, by omega⟩, ⟨by omega, by omega⟩⟩)]
        rw [show (0xE0 + c.toNat / 4096 - 0xE0) * 4096
            + (0x80 + c.toNat / 64 % 64 - 0x80) * 64
            + (0x80 + c.toNat % 64 - 0x80) = c.toNat from by omega]
        rw [if_pos ⟨by omega, by omega⟩, hofNat]
      · simp only [if_neg h1, if_neg h2, if_neg h3, List.cons_append,
          List.nil_append]
        have h4 : c.toNat < 0x110000 := by omega
        simp only [utf8DecodeOne]
        rw [if_neg (by omega), if_neg (by omega), if_neg (by omega),
          if_neg (by omega), if_pos (by omega),
          if_pos (show isContByte (0x80 + c.toNat / 4096 % 64) ∧
              isContByte (0x80 + c.toNat / 64 % 64) ∧
              isContByte (0x80 + c.toNat % 64) from
            ⟨⟨by omega, by omega⟩, ⟨by omega, by omega⟩, ⟨by omega, by omega⟩⟩)]
        rw [show (0xF0 + c.toNat / 0x40000 - 0xF0) * 0x40000
            + (0x80 + c.toNat / 4096 % 64 - 0x80) * 4096
            + (0x80 + c.toNat / 64 % 64 - 0x80) * 64
            + (0x80 + c.toNat % 64 - 0x80) = c.toNat from by omega]
        rw [if_pos ⟨by omega, by omega⟩, hofNat]

/-- The encoding of a scalar is never empty. -/
theorem utf8EncodeChar_length_pos (c : Char) : 0 < (utf8EncodeChar c).length := by
  simp only [utf8EncodeChar]
  split_ifs <;> simp

/-- Auxiliary form of the round trip, one scalar peeled off. -/
theorem utf8DecodeAux_encodeChar (f : Nat) (c : Char) (r : List Nat)
    (h : (utf8EncodeChar c ++ r).length ≤ f) :
    utf8DecodeAux f (utf8EncodeChar c ++ r)
      = (utf8Decode r).map (fun cs => c :: cs) := by
  cases f with
  | zero =>
    exfalso
    have hp := utf8EncodeChar_length_pos c
    simp only [List.length_append, Nat.le_zero] at h
    omega
  | succ g =>
    obtain ⟨b0, enc, henc⟩ : ∃ b0 enc, utf8EncodeChar c = b0 :: enc := by
      cases hE : utf8EncodeChar c with
      | nil =>
        exfalso
        have hp := utf8EncodeChar_length_pos c
        rw [hE] at hp
        simp at hp
      | cons a as => exact ⟨a, as, rfl⟩
    have hone : utf8DecodeOne (b0 :: (enc ++ r)) = some (c, r) := by
      rw [← List.cons_append, ← henc]
      exact utf8DecodeOne_encodeChar c r
    rw [henc, List.cons_append]
    simp only [utf8DecodeAux]
    rw [hone]
    dsimp only
    rw [utf8Decode, utf8DecodeAux_congr g r.length r ?_ (Nat.le_refl _)]
    rw [henc] at h
    simp only [List.length_cons, List.length_append] at h
    omega

/-- Round trip: decoding the UTF-8 encoding of any scalar sequence recovers
exactly that sequence. -/
theorem utf8Decode_utf8Encode (cs : List Char) :
    utf8Decode (utf8Encode cs) = some cs := by
  induction cs with
  | nil => rfl
  | cons c rest ih =>
    have henc : utf8Encode (c :: rest) = utf8EncodeChar c ++ utf8Encode rest := by
      simp [utf8Encode]
    rw [henc, utf8Decode, utf8DecodeAux_encodeChar _ c _ (Nat.le_refl _), ih]
    rfl


/-- Decoding the byte encoding of a string recovers exactly that string:
`String::from_utf8` inverts `String::into_bytes`. -/
theorem decodePeerMsg_strBytes (s : String) : decodePeerMsg (strBytes s) = s := by
  unfold decodePeerMsg strBytes
  rw [utf8Decode_utf8Encode]

/-- The debug rendering of a payload is never the empty string. -/
theorem rawBytesMsg_ne_empty (raw : List Nat) : rawBytesMsg raw ≠ "" := by
  intro h
  have hlen := congrArg String.length h
  simp only [rawBytesMsg, String.length_append] at hlen
  rw [show ("Raw bytes: ").length = 11 from rfl] at hlen
  simp at hlen

/-! ## Theorems: loop helpers -/

/-- The reader loop forwards one event per successful receive, in order,
and is then in whatever state the remaining receives leave it. -/
theorem readerLoop_oks (peer : PeerAddr) (sinkOk : Nat → Bool)
    (oks : List (Option (List Nat))) (rest : List RecvResult) :
    readerLoop peer sinkOk (oks.map Except.ok ++ rest)
      = (oks.map (fun mb => readerEvent peer (msgOfRecv mb))
          ++ (readerLoop peer sinkOk rest).1,
         (readerLoop peer sinkOk rest).2) := by
  induction oks with
  | nil => simp
  | cons mb oks ih =>
    simp only [List.map_cons, List.cons_append, readerLoop, List.append_eq, ih]

/-- The reader loop's output does not depend on the event-sink send
outcomes: the source discards each send's result. -/
theorem readerLoop_sink_irrel (peer : PeerAddr) (s1 s2 : Nat → Bool)
    (ins : List RecvResult) :
    readerLoop peer s1 ins = readerLoop peer s2 ins := by
  induction ins with
  | nil => rfl
  | cons x rest ih =>
    cases x with
    | error e => rfl
    | ok mb => simp only [readerLoop, ih]

/-- The writer loop pushes one encoded payload per received message, in
order, while its channel sends succeed. -/
theorem writerLoop_msgs (sendErr : Nat → Option IoError) (msgs : List String)
    (rest : List WriterRecv) :
    ∀ (n : Nat), (∀ i, i < msgs.length → sendErr (n + i) = none) →
    writerLoop sendErr (msgs.map WriterRecv.msg ++ rest) n
      = (msgs.map strBytes ++ (writerLoop sendErr rest (n + msgs.length)).1,
         (writerLoop sendErr rest (n + msgs.length)).2) := by
  induction msgs with
  | nil => intro n h; simp
  | cons s msgs ih =>
    intro n h
    have h0 : sendErr n = none := by
      have := h 0 (by simp)
      simpa using this
    simp only [List.map_cons, List.cons_append, writerLoop, h0, List.append_eq]
    rw [ih (n + 1) (fun i hi => by
      have := h (i + 1) (by simp only [List.length_cons]; omega)
      rwa [show n + (i + 1) = n + 1 + i from by omega] at this)]
    rw [show n + 1 + msgs.length = n + (msgs.length + 1) from by omega]
    simp

/-- The input producer relays one `Input` event per readable key, in order,
as long as none is the exit key and the queue receiver is alive. -/
theorem inputLoop_noExit (config : Config) (pre : List (Except IoError Key))
    (rest : List (Except IoError Key)) :
    ∀ (n : Nat), config.exit_key ∉ okKeys pre →
    inputLoop config liveSink (pre ++ rest) n
      = ((okKeys pre).map Event.input
          ++ (inputLoop config liveSink rest (n + (okKeys pre).length)).1,
         (inputLoop config liveSink rest (n + (okKeys pre).length)).2) := by
  induction pre with
  | nil => intro n h; simp [okKeys]
  | cons x pre ih =>
    intro n h
    cases x with
    | error e =>
      have hx : okKeys (Except.error e :: pre) = okKeys pre := by
        simp [okKeys, List.filterMap_cons, Except.toOption]
      rw [hx] at h ⊢
      simpa using ih n h
    | ok k =>
      have hx : okKeys (Except.ok k :: pre) = k :: okKeys pre := by
        simp [okKeys, List.filterMap_cons, Except.toOption]
      rw [hx] at h ⊢
      have hk : ¬ k = config.exit_key := fun hc => h (hc ▸ List.mem_cons_self k _)
      have hpre : config.exit_key ∉ okKeys pre := fun hc => h (List.mem_cons_of_mem _ hc)
      simp only [List.cons_append, inputLoop, liveSink, if_true, if_neg hk,
        List.append_eq]
      rw [ih (n + 1) hpre]
      rw [show n + 1 + (okKeys pre).length = n + ((okKeys pre).length + 1) from by omega]
      simp

/-- The tick producer delivers one `Tick` per iteration while the queue
receiver is alive, and never terminates on its own. -/
theorem tickLoop_live (fuel : Nat) : ∀ (n : Nat),
    tickLoop liveSink fuel n = (List.replicate fuel Event.tick, ProducerState.looping) := by
  induction fuel with
  | zero => intro n; rfl
  | succ f ih =>
    intro n
    simp only [tickLoop, liveSink, if_true, ih (n + 1), List.replicate]

/-- With its receiver alive for exactly `k` sends, the tick producer
delivers `k` ticks and panics on the next send. -/
theorem tickLoop_aliveFor (k : Nat) : ∀ (j m : Nat),
    tickLoop (sinkAliveFor (j + k)) (k + (m + 1)) j
      = (List.replicate k Event.tick, ProducerState.panicked) := by
  induction k with
  | zero =>
    intro j m
    rw [Nat.add_zero, Nat.zero_add]
    simp only [tickLoop]
    rw [if_neg (by simp [sinkAliveFor])]
    rfl
  | succ k ih =>
    intro j m
    rw [show k + 1 + (m + 1) = (k + (m + 1)) + 1 from by omega]
    rw [tickLoop]
    rw [if_pos (by simp only [sinkAliveFor, decide_eq_true_eq]; omega)]
    have hfun : sinkAliveFor (j + (k + 1)) = sinkAliveFor ((j + 1) + k) := by
      rw [show j + (k + 1) = (j + 1) + k from by omega]
    rw [hfun, ih (j + 1) m]
    rfl

/-- The discovery relay with a dead queue receiver delivers nothing but
keeps looping over its receives. -/
theorem newPeerLoop_dead (ins : List (Except IoError PeerAddr)) : ∀ (n : Nat),
    newPeerLoop deadSink ins n = ([], ProducerState.looping) := by
  induction ins with
  | nil => intro n; rfl
  | cons x rest ih =>
    intro n
    cases x with
    | error e => simpa [newPeerLoop] using ih n
    | ok p => simp [newPeerLoop, deadSink, ih (n + 1)]

/-- The peer-manager relay with a dead queue receiver delivers nothing but
keeps looping over its receives. -/
theorem pmLoop_dead (ins : List (Except RecvError PeerManagerEvent)) : ∀ (n : Nat),
    pmLoop deadSink ins n = ([], ProducerState.looping) := by
  induction ins with
  | nil => intro n; rfl
  | cons x rest ih =>
    intro n
    cases x with
    | error e => simpa [pmLoop] using ih n
    | ok p => simp [pmLoop, deadSink, ih (n + 1)]

/-- The discovery relay never leaves its loop, whatever its receives and
send outcomes. -/
theorem newPeerLoop_state (sinkOk : Nat → Bool)
    (ins : List (Except IoError PeerAddr)) : ∀ (n : Nat),
    (newPeerLoop sinkOk ins n).2 = ProducerState.looping := by
  induction ins with
  | nil => intro n; rfl
  | cons x rest ih =>
    intro n
    cases x with
    | error e => simpa [newPeerLoop] using ih n
    | ok p => simp [newPeerLoop, ih (n + 1)]

/-- The peer-manager relay never leaves its loop, whatever its receives and
send outcomes. -/
theorem pmLoop_state (sinkOk : Nat → Bool)
    (ins : List (Except RecvError PeerManagerEvent)) : ∀ (n : Nat),
    (pmLoop sinkOk ins n).2 = ProducerState.looping := by
  induction ins with
  | nil => intro n; rfl
  | cons x rest ih =>
    intro n
    cases x with
    | error e => simpa [pmLoop] using ih n
    | ok p => simp [pmLoop, ih (n + 1)]

/-! ## Claim theorems -/

/-- C1, counterexample: the reader loop of `spawn_reader_loop` does not
terminate after the channel-level close signal. After one `Ok(None)` the
loop is still running (about to call `recv` again), and a trace of two
`Ok(None)` results produces two `"Goodbye!"` events, not exactly one with
nothing further. -/
theorem c1_goodbye_counterexample :
    (readerLoop peerA liveSink [Except.ok none, Except.ok none]).1
        = [readerEvent peerA "Goodbye!", readerEvent peerA "Goodbye!"]
    ∧ (readerLoop peerA liveSink [Except.ok none, Except.ok none]).1.length ≠ 1
    ∧ (readerLoop peerA liveSink [Except.ok none]).2 = LoopState.running :=
  ⟨rfl, by decide, rfl⟩

/-- C1, amended: each `Ok(None)` returned by `BoxReader::recv` makes the
reader loop emit exactly one terminal event with text `"Goodbye!"` and then
continue with another `recv` call; the loop terminates only when a
subsequent `recv` returns an error, and emits nothing further after that.
In particular, if the receive after the close signal fails, exactly one
`"Goodbye!"` event is emitted in total. -/
theorem c1_goodbye_amended (peer : PeerAddr) (sinkOk : Nat → Bool)
    (rest : List RecvResult) (e : BoxStreamError) :
    readerLoop peer sinkOk (Except.ok none :: rest)
        = (readerEvent peer "Goodbye!" :: (readerLoop peer sinkOk rest).1,
           (readerLoop peer sinkOk rest).2)
    ∧ readerLoop peer sinkOk [Except.ok none, Except.error e]
        = ([readerEvent peer "Goodbye!"],
           LoopState.exited (PeerConnectionError.boxReaderError e)) :=
  ⟨rfl, rfl⟩

/-- C2: every payload received by the reader loop is forwarded as exactly
one event and never dropped or turned into an error: the byte encoding of
any text decodes back to that text, a payload that decodes is forwarded as
the decoded text, a payload that does not decode is forwarded as the debug
rendering of its bytes, and that rendering is never empty. -/
theorem c2_decode_policy (peer : PeerAddr) (sinkOk : Nat → Bool)
    (raw : List Nat) (rest : List RecvResult) (t : String) :
    readerLoop peer sinkOk (Except.ok (some raw) :: rest)
        = (readerEvent peer (decodePeerMsg raw) :: (readerLoop peer sinkOk rest).1,
           (readerLoop peer sinkOk rest).2)
    ∧ decodePeerMsg (strBytes t) = t
    ∧ (∀ cs, utf8Decode raw = some cs → decodePeerMsg raw = String.mk cs)
    ∧ (utf8Decode raw = none → decodePeerMsg raw = rawBytesMsg raw)
    ∧ rawBytesMsg raw ≠ "" := by
  refine ⟨rfl, decodePeerMsg_strBytes t, ?_, ?_, rawBytesMsg_ne_empty raw⟩
  · intro cs h
    unfold decodePeerMsg
    rw [h]
  · intro h
    unfold decodePeerMsg
    rw [h]

/-- C2, witness: the valid payload `[104, 105]` is forwarded as the decoded
text `"hi"` and the invalid payload `[255]` as its debug rendering. -/
theorem c2_decode_policy_witness :
    utf8Decode [104, 105] = some ['h', 'i']
    ∧ decodePeerMsg [104, 105] = String.mk ['h', 'i']
    ∧ utf8Decode [255] = none
    ∧ decodePeerMsg [255] = rawBytesMsg [255] :=
  ⟨by decide,
   (c2_decode_policy peerA liveSink [104, 105] [] "").2.2.1 ['h', 'i'] (by decide),
   by decide,
   (c2_decode_policy peerA liveSink [255] [] "").2.2.2.1 (by decide)⟩

/-- C3: the writer loop dequeues the enqueued messages one at a time in
FIFO order, converts each to its byte encoding, and pushes them through the
outbound channel in that same order, none skipped and none duplicated. -/
theorem c3_writer_fifo (msgs : List String) :
    writerLoop noSendErr (msgs.map WriterRecv.msg) 0
      = (msgs.map strBytes, LoopState.running) := by
  have h := writerLoop_msgs noSendErr msgs [] 0 (fun i _ => rfl)
  simpa [writerLoop] using h

/-- C4: a channel-level receive error makes the reader loop exit
immediately with that error wrapped as `BoxReaderError`, forwarding one
event per earlier payload and none for the failure; and the loop's whole
behaviour is independent of the event-sink send outcomes, whose errors the
source discards. -/
theorem c4_reader_failure_policy (peer : PeerAddr) (s1 s2 : Nat → Bool)
    (oks : List (Option (List Nat))) (e : BoxStreamError)
    (junk ins : List RecvResult) :
    readerLoop peer s1 (oks.map Except.ok ++ Except.error e :: junk)
        = (oks.map (fun mb => readerEvent peer (msgOfRecv mb)),
           LoopState.exited (PeerConnectionError.boxReaderError e))
    ∧ (readerLoop peer s1 (oks.map Except.ok ++ Except.error e :: junk)).1.length
        = oks.length
    ∧ readerLoop peer s1 ins = readerLoop peer s2 ins := by
  have h := readerLoop_oks peer s1 oks (Except.error e :: junk)
  have hbase : readerLoop peer s1 (Except.error e :: junk)
      = ([], LoopState.exited (PeerConnectionError.boxReaderError e)) := rfl
  refine ⟨?_, ?_, readerLoop_sink_irrel peer s1 s2 ins⟩
  · rw [h, hbase]
    simp
  · rw [h, hbase]
    simp

/-- C5: a failed channel send terminates the writer loop with
`BoxWriterError` right after the successfully pushed prefix, and a failed
channel receive (every sender handle dropped) terminates it with
`MsgReceiveFailed`; in both cases nothing further is processed, so dropping
the outbound send handle suffices to stop the loop. -/
theorem c5_writer_failures (msgs : List String) (m : String)
    (post : List WriterRecv) (e : IoError) (pre2 : List String)
    (post2 : List WriterRecv) :
    writerLoop (sendErrAt msgs.length e)
        (msgs.map WriterRecv.msg ++ WriterRecv.msg m :: post) 0
        = (msgs.map strBytes, LoopState.exited (PeerConnectionError.boxWriterError e))
    ∧ writerLoop noSendErr (pre2.map WriterRecv.msg ++ WriterRecv.closed :: post2) 0
        = (pre2.map strBytes,
           LoopState.exited (PeerConnectionError.msgReceiveFailed {})) := by
  constructor
  · have h := writerLoop_msgs (sendErrAt msgs.length e) msgs
      (WriterRecv.msg m :: post) 0
      (fun i hi => by
        simp only [sendErrAt, Nat.zero_add]
        rw [if_neg (by omega)])
    rw [h]
    have hfail : sendErrAt msgs.length e (0 + msgs.length) = some e := by
      simp [sendErrAt]
    simp only [writerLoop, hfail]
    simp
  · have h := writerLoop_msgs noSendErr pre2 (WriterRecv.closed :: post2) 0
      (fun i _ => rfl)
    rw [h]
    simp [writerLoop]

/-- C6: `client_handshake` makes exactly one connect call, to
`peer.socket_addr` with a 500 ms timeout; a connect failure surfaces as
`CannotConnectToPeer`, a handshake failure as `HandshakeFailed`, a stream
duplication failure as `TcpStreamCloneFailed`; and on every failure path
the construction trace is empty — no loop spawned, no send handle created,
no connection returned. -/
theorem c6_client_handshake_failures (env : ClientEnv) (self : Handshaker)
    (peer : PeerAddr) (e ce : IoError) (he : HandshakeError) (ts : TcpStream)
    (ks : HandshakeKeys) :
    (clientHandshake env self peer).2.2 = [(peer.socket_addr, 500)]
    ∧ (env.connectTimeout peer.socket_addr 500 = Except.error e →
        clientHandshake env self peer
          = (Except.error (PeerConnectionError.cannotConnectToPeer e), emptyTrace,
             [(peer.socket_addr, 500)]))
    ∧ (env.connectTimeout peer.socket_addr 500 = Except.ok ts →
        env.ssbClient ts self.network_key self.public_key self.secret_key
            peer.public_key = Except.error he →
        clientHandshake env self peer
          = (Except.error (PeerConnectionError.handshakeFailed he), emptyTrace,
             [(peer.socket_addr, 500)]))
    ∧ (env.connectTimeout peer.socket_addr 500 = Except.ok ts →
        env.ssbClient ts self.network_key self.public_key self.secret_key
            peer.public_key = Except.ok ks →
        env.conn.cloneResult ts = Except.error ce →
        clientHandshake env self peer
          = (Except.error (PeerConnectionError.tcpStreamCloneFailed ce), emptyTrace,
             [(peer.socket_addr, 500)])) := by
  refine ⟨?_, ?_, ?_, ?_⟩
  · unfold clientHandshake
    cases h : env.connectTimeout peer.socket_addr 500 <;> rfl
  · intro h
    unfold clientHandshake
    rw [h]
  · intro h1 h2
    unfold clientHandshake
    rw [h1]
    unfold fromHandshake
    dsimp only
    rw [h2]
  · intro h1 h2 h3
    unfold clientHandshake
    rw [h1]
    unfold fromHandshake
    dsimp only
    rw [h2]
    dsimp only
    rw [h3]

/-- C6, witness: the three failure paths evaluated in concrete client
environments. -/
theorem c6_client_handshake_failures_witness :
    clientHandshake envConnectFail hsA peerA
        = (Except.error (PeerConnectionError.cannotConnectToPeer { code := 1 }),
           emptyTrace, [(peerA.socket_addr, 500)])
    ∧ clientHandshake envAuthFail hsA peerA
        = (Except.error (PeerConnectionError.handshakeFailed
            (HandshakeError.authFailure 3)), emptyTrace, [(peerA.socket_addr, 500)])
    ∧ clientHandshake envCloneFail hsA peerA
        = (Except.error (PeerConnectionError.tcpStreamCloneFailed { code := 2 }),
           emptyTrace, [(peerA.socket_addr, 500)]) :=
  ⟨(c6_client_handshake_failures envConnectFail hsA peerA { code := 1 } { code := 2 }
      (HandshakeError.authFailure 3) tsA keysA).2.1 rfl,
   (c6_client_handshake_failures envAuthFail hsA peerA { code := 1 } { code := 2 }
      (HandshakeError.authFailure 3) tsA keysA).2.2.1 rfl rfl,
   (c6_client_handshake_failures envCloneFail hsA peerA { code := 1 } { code := 2 }
      (HandshakeError.authFailure 3) tsA keysA).2.2.2 rfl rfl rfl⟩

/-- C7: on a successful construction, the duplicated stream is wrapped in a
channel seeded with exactly the handshake's write key and write nonce
generator and handed to the one writer loop, the original stream is wrapped
with exactly the read key and read nonce generator and handed to the one
reader loop, and the returned handle carries only the peer identity, the
outbound channel id, and two opaque thread handles. -/
theorem c7_secure_channel_seeding (env : ConnEnv) (event_bus : Nat)
    (ts ws : TcpStream)
    (F : TcpStream → Except HandshakeError (PeerAddr × HandshakeKeys))
    (peer : PeerAddr) (keys : HandshakeKeys)
    (hF : F ts = Except.ok (peer, keys))
    (hcl : env.cloneResult ts = Except.ok ws) :
    fromHandshake env event_bus ts F
      = (Except.ok
          { peer := peer, peer_writer_tx := env.chanId,
            reader_loop_handle := 0, writer_loop_handle := 1 },
         { writerLoopSpawned := some (env.chanId,
             { stream := ws, key := keys.write_key,
               noncegen := keys.write_noncegen }),
           readerLoopSpawned := some (event_bus, peer,
             { stream := ts, key := keys.read_key,
               noncegen := keys.read_noncegen }),
           senderCreated := some env.chanId }) := by
  unfold fromHandshake
  rw [hF]
  dsimp only
  rw [hcl]

/-- C7, witness: the construction evaluated in a concrete environment. -/
theorem c7_secure_channel_seeding_witness :
    fromHandshake connEnvA 11 tsA (fun _ => Except.ok (peerA, keysA))
      = (Except.ok
          { peer := peerA, peer_writer_tx := 42,
            reader_loop_handle := 0, writer_loop_handle := 1 },
         { writerLoopSpawned := some (42,
             { stream := { id := 105, peerAddrResult := Except.ok { addr := 9 } },
               key := 1, noncegen := 2 }),
           readerLoopSpawned := some (11, peerA,
             { stream := tsA, key := 3, noncegen := 4 }),
           senderCreated := some 42 }) :=
  c7_secure_channel_seeding connEnvA 11 tsA
    { id := 105, peerAddrResult := Except.ok { addr := 9 } }
    (fun _ => Except.ok (peerA, keysA)) peerA keysA rfl rfl

/-- C8: on a successful `server_handshake`, the returned connection's peer
address is built from exactly the public key authenticated by the
responder-role handshake, the stream's observed remote socket address, and
the protocol tag `Net` — no caller-supplied value enters it. -/
theorem c8_server_peer_addr (env : ServerEnv) (self : Handshaker) (sid : Nat)
    (addr : SocketAddr) (cpk : PublicKey) (keys : HandshakeKeys) (ws : TcpStream)
    (hs : env.ssbServerWithClientPk { id := sid, peerAddrResult := Except.ok addr }
        self.network_key self.public_key self.secret_key = Except.ok (cpk, keys))
    (hcl : env.conn.cloneResult { id := sid, peerAddrResult := Except.ok addr }
        = Except.ok ws) :
    (serverHandshake env self { id := sid, peerAddrResult := Except.ok addr }).1
      = Except.ok
          { peer :=
              { public_key := cpk, socket_addr := addr,
                protocol := Protocol.net },
            peer_writer_tx := env.conn.chanId,
            reader_loop_handle := 0, writer_loop_handle := 1 } := by
  unfold serverHandshake fromHandshake
  dsimp only
  rw [hs]
  dsimp only
  rw [hcl]

/-- C8, witness: the server construction evaluated in a concrete
environment: peer rebuilt from authenticated key `[7]`, observed address 9,
protocol `Net`. -/
theorem c8_server_peer_addr_witness :
    (serverHandshake serverEnvA hsA
        { id := 5, peerAddrResult := Except.ok { addr := 9 } }).1
      = Except.ok
          { peer :=
              { public_key := { bytes := [7] },
                socket_addr := { addr := 9 }, protocol := Protocol.net },
            peer_writer_tx := 42, reader_loop_handle := 0,
            writer_loop_handle := 1 } :=
  c8_server_peer_addr serverEnvA hsA 5 { addr := 9 } { bytes := [7] } keysA
    { id := 105, peerAddrResult := Except.ok { addr := 9 } } rfl rfl

/-- C9: when the configured exit key is read, the input producer delivers
exactly one `Input` event carrying it and returns, reading nothing further;
it also returns at end of input; and the tick, discovery and peer-manager
producers never leave their loops (they contain no exit-key check). -/
theorem c9_input_exit (config : Config) (pre junk : List (Except IoError Key))
    (discIns : List (Except IoError PeerAddr))
    (pmIns : List (Except RecvError PeerManagerEvent)) (fuel n m m2 m3 : Nat)
    (h : config.exit_key ∉ okKeys pre) :
    inputLoop config liveSink (pre ++ Except.ok config.exit_key :: junk) 0
        = ((okKeys pre).map Event.input ++ [Event.input config.exit_key],
           ProducerState.returned)
    ∧ (inputLoop config liveSink (pre ++ Except.ok config.exit_key :: junk) 0).1.count
        (Event.input config.exit_key) = 1
    ∧ inputLoop config liveSink [] n = ([], ProducerState.returned)
    ∧ tickLoop liveSink fuel m
        = (List.replicate fuel Event.tick, ProducerState.looping)
    ∧ (newPeerLoop liveSink discIns m2).2 = ProducerState.looping
    ∧ (pmLoop liveSink pmIns m3).2 = ProducerState.looping := by
  have hmain : inputLoop config liveSink
      (pre ++ Except.ok config.exit_key :: junk) 0
      = ((okKeys pre).map Event.input ++ [Event.input config.exit_key],
         ProducerState.returned) := by
    rw [inputLoop_noExit config pre (Except.ok config.exit_key :: junk) 0 h]
    have hlast : inputLoop config liveSink
        (Except.ok config.exit_key :: junk) (0 + (okKeys pre).length)
        = ([Event.input config.exit_key], ProducerState.returned) := by
      simp [inputLoop, liveSink]
    rw [hlast]
  refine ⟨hmain, ?_, rfl, tickLoop_live fuel m,
    newPeerLoop_state liveSink discIns m2, pmLoop_state liveSink pmIns m3⟩
  rw [hmain]
  rw [List.count_append]
  have h0 : ((okKeys pre).map Event.input).count (Event.input config.exit_key)
      = 0 := by
    rw [List.count_eq_zero]
    intro hc
    obtain ⟨k, hk, hek⟩ := List.mem_map.mp hc
    injection hek with hk2
    exact h (hk2 ▸ hk)
  rw [h0]
  simp

/-- C9, witness: with exit key q, the trace a, q, z delivers the events for
a and q and returns without reading z; the other producers keep looping. -/
theorem c9_input_exit_witness :
    inputLoop defaultConfig liveSink
        ([Except.ok (Key.char 'a')] ++ Except.ok defaultConfig.exit_key
          :: [Except.ok (Key.char 'z')]) 0
      = ((okKeys [Except.ok (Key.char 'a')]).map Event.input
          ++ [Event.input defaultConfig.exit_key], ProducerState.returned)
    ∧ (inputLoop defaultConfig liveSink
        ([Except.ok (Key.char 'a')] ++ Except.ok defaultConfig.exit_key
          :: [Except.ok (Key.char 'z')]) 0).1.count
        (Event.input defaultConfig.exit_key) = 1
    ∧ inputLoop defaultConfig liveSink [] 0 = ([], ProducerState.returned)
    ∧ tickLoop liveSink 3 0
        = (List.replicate 3 Event.tick, ProducerState.looping)
    ∧ (newPeerLoop liveSink [Except.ok peerA] 0).2 = ProducerState.looping
    ∧ (pmLoop liveSink [] 0).2 = ProducerState.looping :=
  c9_input_exit defaultConfig [Except.ok (Key.char 'a')]
    [Except.ok (Key.char 'z')] [Except.ok peerA] [] 3 0 0 0 0 (by decide)

/-- C10: with the queue receiver dropped, the tick producer's next send
panics (after `k` live sends it delivers `k` ticks and then panics), while
the input producer returns cleanly on its first failed send, and the
discovery and peer-manager relays ignore the failure and keep looping. -/
theorem c10_dropped_receiver (fuel n k m : Nat) (config : Config) (key : Key)
    (rest : List (Except IoError Key)) (discIns : List (Except IoError PeerAddr))
    (pmIns : List (Except RecvError PeerManagerEvent)) :
    tickLoop deadSink (fuel + 1) n = ([], ProducerState.panicked)
    ∧ tickLoop (sinkAliveFor k) (k + (m + 1)) 0
        = (List.replicate k Event.tick, ProducerState.panicked)
    ∧ inputLoop config deadSink (Except.ok key :: rest) n
        = ([], ProducerState.returned)
    ∧ newPeerLoop deadSink discIns n = ([], ProducerState.looping)
    ∧ pmLoop deadSink pmIns n = ([], ProducerState.looping) := by
  refine ⟨?_, ?_, ?_, newPeerLoop_dead discIns n, pmLoop_dead pmIns n⟩
  · rfl
  · have ht := tickLoop_aliveFor k 0 m
    rwa [Nat.zero_add] at ht
  · rfl
